import Mathlib

/-
Verification of the gevel GiST-index inspection tool (src/src/lib.rs and
src/src/gist.rs).

Modelling notes.
The tool walks an on-disk GiST index: fixed-size pages addressed by block
number, each page either a leaf or an internal page whose slots hold
downlink entries (child block number plus an invalid/placeholder flag).
The tool trusts the structure to be acyclic, so the storage reachable from
the root block is modelled as a finite tree (GistTree): each node records
the fields the traversal extracts from the corresponding page (block
number, rightlink, free space, and for leaves the slot count; for internal
pages the slot count is the length of the entry list).  An entry of an
internal page is the pair of its invalid flag and the subtree rooted at
the block its downlink points to, so following a downlink in the code
corresponds to descending into the child subtree here.
Machine integers (u16/u32/usize/u64) are modelled as Nat; none of the
operations below can overflow on values the storage layer can actually
hold, and the one guarded subtraction (pd_lower - headerSize) is modelled
exactly as guarded in the source.
-/

namespace Gevel

/-- Postgres block size, pg_sys::BLCKSZ (8 KiB pages). -/
def BLCKSZ : Nat := 8192

/-- Postgres maximum alignment, pg_sys::MAXIMUM_ALIGNOF. -/
def MAXIMUM_ALIGNOF : Nat := 8

/-- Size of the fixed page header: size_of::<PageHeaderData>() and also
offset_of!(PageHeaderData, pd_linp), since pd_linp is the trailing
flexible array member (8-byte LSN, six u16 fields, one u32 field). -/
def sizeOfPageHeaderData : Nat := 24

/-- Size of one slot-table entry, size_of::<ItemIdData>(). -/
def sizeOfItemIdData : Nat := 4

/-- PAGE_SIZE from src/src/lib.rs lines 26-28: BLCKSZ minus the
MAXALIGN-rounded size of the page header plus one item id.  The source
masks with the u32 complement of (MAXIMUM_ALIGNOF - 1), i.e. with
2^32 - MAXIMUM_ALIGNOF. -/
def PAGE_SIZE : Nat :=
  BLCKSZ -
    ((sizeOfPageHeaderData + sizeOfItemIdData + (MAXIMUM_ALIGNOF - 1)) &&&
      (2 ^ 32 - MAXIMUM_ALIGNOF))

/-- pg_sys::InvalidBlockNumber, the all-ones u32 sentinel. -/
def InvalidBlockNumber : Nat := 4294967295

/-- Root block of a GiST index, src/src/lib.rs line 29. -/
def GIST_ROOT_BLKNO : Nat := 0

/-- pg_sys::FirstOffsetNumber: slot positions are 1-based. -/
def FirstOffsetNumber : Nat := 1

/-- page_max_offset_number from src/src/lib.rs lines 31-41: the populated
slot count of a page with lower boundary pd_lower, clamped to 0 when the
lower boundary does not exceed the header. -/
def page_max_offset_number (pd_lower : Nat) : Nat :=
  if pd_lower ≤ sizeOfPageHeaderData then 0
  else (pd_lower - sizeOfPageHeaderData) / sizeOfItemIdData

/-- page_is_special_ptr from src/src/lib.rs lines 43-55: the special
(opaque) region offset pd_special must lie within [headerSize, BLCKSZ]. -/
def page_is_special_ptr (pd_special : Nat) : Bool :=
  decide (pd_special ≤ BLCKSZ) && decide (sizeOfPageHeaderData ≤ pd_special)

/-- page_get_special_ptr from src/src/lib.rs lines 57-64: asserts
page_is_special_ptr and returns the byte offset of the special region;
the assertion failure (fatal abort) is modelled as none. -/
def page_get_special_ptr (pd_special : Nat) : Option Nat :=
  if page_is_special_ptr pd_special then some pd_special else none

/-- item_ptr_get_blk_num from src/src/lib.rs lines 87-90: rebuilds a
32-bit block number from the two 16-bit halves bi_hi and bi_lo of the
block id stored in the ItemPointer. -/
def item_ptr_get_blk_num (bi_hi bi_lo : Nat) : Nat :=
  (bi_hi <<< 16) ||| bi_lo

mutual
/-- The pages of an index reachable from one block, unfolded into a tree
(the structure is trusted to be acyclic).  A leaf page carries its block
number, rightlink, slot count and free space; an internal page carries
its block number, rightlink, free space and its downlink entries in slot
order. -/
inductive GistTree where
  | leaf (blk rightlink maxOffset freeSpace : Nat)
  | node (blk rightlink freeSpace : Nat) (entries : EntryList)
  deriving DecidableEq
/-- Downlink entries of an internal page in slot order: each carries the
invalid/placeholder flag decoded from the entry bytes and the subtree
rooted at the block its downlink points to. -/
inductive EntryList where
  | nil
  | cons (invalid : Bool) (child : GistTree) (rest : EntryList)
  deriving DecidableEq
end

/-- Number of entries, i.e. the slot count of an internal page. -/
def EntryList.length : EntryList → Nat
  | .nil => 0
  | .cons _ _ rest => 1 + rest.length

/-- Block number of the page at the root of the subtree. -/
def GistTree.blk : GistTree → Nat
  | .leaf b _ _ _ => b
  | .node b _ _ _ => b

/-- Rightlink stored in the opaque region of the page. -/
def GistTree.rightlink : GistTree → Nat
  | .leaf _ r _ _ => r
  | .node _ r _ _ => r

/-- Free space of the page as reported by the storage layer. -/
def GistTree.freeSpace : GistTree → Nat
  | .leaf _ _ _ f => f
  | .node _ _ f _ => f

/-- Slot count of the page (page.max_offset() in the source). -/
def GistTree.maxOffset : GistTree → Nat
  | .leaf _ _ mo _ => mo
  | .node _ _ _ es => es.length

mutual
/-- IndexTreeNode from src/src/gist.rs lines 119-126: snapshot node with
the slot position of the node in its parent, slot count, block number, free
space, optional rightlink and, for internal pages only, the child list. -/
inductive IndexTreeNode where
  | mk (offset max_offset block_num free_space : Nat)
      (right_link : Option Nat) (children : Option NodeList)
/-- Child sequence of a snapshot node, in slot order. -/
inductive NodeList where
  | nil
  | cons (head : IndexTreeNode) (tail : NodeList)
end

/-- Slot position of this node within its parent. -/
def IndexTreeNode.offset : IndexTreeNode → Nat
  | .mk o _ _ _ _ _ => o

/-- Slot count of the page of this node. -/
def IndexTreeNode.max_offset : IndexTreeNode → Nat
  | .mk _ mo _ _ _ _ => mo

/-- Block number of the page of this node. -/
def IndexTreeNode.block_num : IndexTreeNode → Nat
  | .mk _ _ b _ _ _ => b

/-- Free-space byte count of the page of this node. -/
def IndexTreeNode.free_space : IndexTreeNode → Nat
  | .mk _ _ _ f _ _ => f

/-- Rightlink of the page of this node, none when it was InvalidBlockNumber. -/
def IndexTreeNode.right_link : IndexTreeNode → Option Nat
  | .mk _ _ _ _ r _ => r

/-- Child list: none for a leaf, some list for an internal page. -/
def IndexTreeNode.children : IndexTreeNode → Option NodeList
  | .mk _ _ _ _ _ c => c

/-- True when the node has no children at all: either a leaf (children
absent) or an internal node whose child list is empty. -/
def IndexTreeNode.childless : IndexTreeNode → Bool
  | .mk _ _ _ _ _ none => true
  | .mk _ _ _ _ _ (some .nil) => true
  | .mk _ _ _ _ _ (some (.cons _ _)) => false

/-- IndexTreeNode::new from src/src/gist.rs lines 128-149: rightlink
equal to InvalidBlockNumber becomes none, and the child list starts as
none for a leaf and as an empty list for an internal page. -/
def IndexTreeNode.new (max_offset free_space offset block_num right : Nat)
    (is_leaf : Bool) : IndexTreeNode :=
  .mk offset max_offset block_num free_space
    (if right = InvalidBlockNumber then none else some right)
    (if is_leaf then none else some .nil)

/-- Replaces the child list of a snapshot node (the children.push loop of
get_tree_node, which fills the initially empty list). -/
def IndexTreeNode.withChildren : IndexTreeNode → NodeList → IndexTreeNode
  | .mk o mo b f r _, cs => .mk o mo b f r (some cs)

mutual
/-- IndexInspector::get_tree_node from src/src/gist.rs lines 23-65:
builds the snapshot node for one page; for an internal page it descends
into every downlink, but only while the depth bound allows (recurse is
max > level when a bound is given). -/
def get_tree_node : Nat → Option Nat → GistTree → Nat → IndexTreeNode
  | level, max_level, t, offset =>
    match t with
    | .leaf blk right mo fs =>
      IndexTreeNode.new mo fs offset blk right true
    | .node blk right fs es =>
      let n := IndexTreeNode.new es.length fs offset blk right false
      let recurse : Bool := match max_level with
        | some max => max > level
        | none => true
      if recurse then
        n.withChildren (get_tree_children level max_level es FirstOffsetNumber)
      else
        n
/-- Child-building loop of get_tree_node: for slot positions i, i+1, ...
decode the child block and recurse at level + 1, keeping slot order. -/
def get_tree_children : Nat → Option Nat → EntryList → Nat → NodeList
  | _, _, .nil, _ => .nil
  | level, max_level, .cons _ c rest, i =>
    .cons (get_tree_node (level + 1) max_level c i)
      (get_tree_children level max_level rest (i + 1))
end

/-- IndexInspector::get_tree from src/src/gist.rs lines 18-21: snapshot
from the root block at level 0 with synthetic parent slot 0. -/
def get_tree (t : GistTree) (max_level : Option Nat) : IndexTreeNode :=
  get_tree_node 0 max_level t 0

/-- Stats from src/src/gist.rs lines 194-214. -/
structure Stats where
  level : Nat
  num_pages : Nat
  num_leaf_pages : Nat
  num_leaf_tuple : Nat
  num_tuple : Nat
  num_invalid_tuple : Nat
  tuple_size : Nat
  leaf_tuple_size : Nat
  total_size : Nat
  deriving DecidableEq

/-- Stats::default from src/src/gist.rs lines 216-230: all counters 0. -/
def Stats.default : Stats := ⟨0, 0, 0, 0, 0, 0, 0, 0, 0⟩

mutual
/-- IndexInspector::stats_inner from src/src/gist.rs lines 73-108: on
every visited page bump the page count, add PAGE_SIZE - freeSpace to
tuple_size, add BLCKSZ to total_size, add the slot count to num_tuple and
take the running maximum of the depth; a leaf additionally feeds the
leaf-restricted counters, an internal page loops over its entries.  The
max_level argument is carried exactly as in the source, which never
consults it. -/
def stats_inner : Nat → Option Nat → GistTree → Stats → Stats
  | level, max_level, t, stats =>
    let max_offset := t.maxOffset
    let tuple_size := PAGE_SIZE - t.freeSpace
    let s1 : Stats := { stats with
      num_pages := stats.num_pages + 1,
      tuple_size := stats.tuple_size + tuple_size,
      total_size := stats.total_size + BLCKSZ,
      num_tuple := stats.num_tuple + max_offset,
      level := max stats.level level }
    match t with
    | .leaf _ _ _ _ => { s1 with
        num_leaf_pages := s1.num_leaf_pages + 1,
        leaf_tuple_size := s1.leaf_tuple_size + tuple_size,
        num_leaf_tuple := s1.num_leaf_tuple + max_offset }
    | .node _ _ _ es => stats_entries level max_level es s1
/-- Entry loop of stats_inner: count an invalid entry, then recurse into
the child at level + 1 regardless of validity. -/
def stats_entries : Nat → Option Nat → EntryList → Stats → Stats
  | _, _, .nil, stats => stats
  | level, max_level, .cons invalid c rest, stats =>
    let s1 := if invalid then
        { stats with num_invalid_tuple := stats.num_invalid_tuple + 1 }
      else stats
    stats_entries level max_level rest (stats_inner (level + 1) max_level c s1)
end

/-- IndexInspector::stats from src/src/gist.rs lines 67-71: run the
accumulator from the root block at level 0 starting from Stats::default. -/
def stats (t : GistTree) (max_level : Option Nat) : Stats :=
  stats_inner 0 max_level t Stats.default

/-- Fields of one output line that both the dump of src/src/lib.rs and
the snapshot renderer of src/src/gist.rs print: the slot position of the node
within its parent, its depth, its block number, its slot count and its
free-space byte count.  (The occupancy percentage is derived from
free_space, and the rightlink is rendered differently by the two
revisions, so neither is part of the compared record.) -/
structure DumpLine where
  coff : Nat
  level : Nat
  blk : Nat
  max_offset : Nat
  free_space : Nat
  deriving DecidableEq

mutual
/-- IndexDescriptor::dump_tree from src/src/lib.rs lines 120-167: print
one line for the current page, then, when the page is internal and the
depth bound allows (max_level.is_none() or level < max_level.unwrap()),
dump every child at level + 1. -/
def dump_tree : Nat → Option Nat → GistTree → Nat → List DumpLine
  | level, max_level, t, coff =>
    let line : DumpLine := ⟨coff, level, t.blk, t.maxOffset, t.freeSpace⟩
    match t with
    | .leaf _ _ _ _ => [line]
    | .node _ _ _ es =>
      let descend : Bool := match max_level with
        | none => true
        | some max => level < max
      line :: (if descend then dump_children level max_level es FirstOffsetNumber else [])
/-- Child loop of dump_tree: slots i, i+1, ... in ascending order. -/
def dump_children : Nat → Option Nat → EntryList → Nat → List DumpLine
  | _, _, .nil, _ => []
  | level, max_level, .cons _ c rest, i =>
    dump_tree (level + 1) max_level c i ++ dump_children level max_level rest (i + 1)
end

/-- Display for IndexDescriptor, src/src/lib.rs lines 176-180: unbounded
dump from the root block with synthetic parent slot 0. -/
def dump (t : GistTree) : List DumpLine :=
  dump_tree 0 none t 0

mutual
/-- IndexTreeNode::fmt from src/src/gist.rs lines 161-185: print one line
for this snapshot node, then render the children (if present) at
level + 1, restricted to the DumpLine fields both revisions print. -/
def render_node : IndexTreeNode → Nat → List DumpLine
  | .mk o mo b f _ ch, level =>
    (⟨o, level, b, mo, f⟩ : DumpLine) ::
      (match ch with
       | none => []
       | some cs => render_children cs (level + 1))
/-- Child loop of IndexTreeNode::fmt. -/
def render_children : NodeList → Nat → List DumpLine
  | .nil, _ => []
  | .cons h rest, level => render_node h level ++ render_children rest level
end

/-- Display for IndexTree, src/src/gist.rs lines 188-192: render the root
snapshot node at level 0. -/
def render (n : IndexTreeNode) : List DumpLine :=
  render_node n 0

/-- Reference measures of a page tree, computed directly from the model
(independently of the traversal code): pages, leaf pages, tuples (summed
slot counts), leaf tuples, invalid downlink entries, occupied bytes
(PAGE_SIZE - freeSpace summed over all pages), leaf occupied bytes, and
the zero-based height. -/
structure Measures where
  size : Nat
  leaves : Nat
  tuples : Nat
  leafTuples : Nat
  invalid : Nat
  occ : Nat
  leafOcc : Nat
  height : Nat
  deriving DecidableEq

mutual
/-- Reference measures of a subtree. -/
def measures : GistTree → Measures
  | .leaf _ _ mo fs => ⟨1, 1, mo, mo, 0, PAGE_SIZE - fs, PAGE_SIZE - fs, 0⟩
  | .node _ _ fs es =>
    let m := measuresE es
    ⟨1 + m.size, m.leaves, es.length + m.tuples, m.leafTuples, m.invalid,
      (PAGE_SIZE - fs) + m.occ, m.leafOcc, m.height⟩
/-- Reference measures summed over an entry list; the height of a
non-empty entry list is the maximum over its children of 1 + height. -/
def measuresE : EntryList → Measures
  | .nil => ⟨0, 0, 0, 0, 0, 0, 0, 0⟩
  | .cons inv c rest =>
    let mc := measures c
    let mr := measuresE rest
    ⟨mc.size + mr.size, mc.leaves + mr.leaves, mc.tuples + mr.tuples,
      mc.leafTuples + mr.leafTuples,
      (if inv then 1 else 0) + mc.invalid + mr.invalid,
      mc.occ + mr.occ, mc.leafOcc + mr.leafOcc,
      max (1 + mc.height) mr.height⟩
end

/-- Maximum depth reached when the children of an entry list are visited
from a page at the given level (0 when the list is empty). -/
def levelE : EntryList → Nat → Nat
  | .nil, _ => 0
  | .cons _ c rest, level =>
    max (level + 1 + (measures c).height) (levelE rest level)

mutual
/-- Number of nodes of a snapshot tree. -/
def nodeCount : IndexTreeNode → Nat
  | .mk _ _ _ _ _ none => 1
  | .mk _ _ _ _ _ (some cs) => 1 + nodeCountL cs
/-- Number of nodes of a snapshot child list. -/
def nodeCountL : NodeList → Nat
  | .nil => 0
  | .cons h rest => nodeCount h + nodeCountL rest
end

mutual
/-- Depth of a snapshot tree counted in levels (a childless node has
depth 1). -/
def treeDepth : IndexTreeNode → Nat
  | .mk _ _ _ _ _ none => 1
  | .mk _ _ _ _ _ (some cs) => 1 + treeDepthL cs
/-- Maximum depth over a snapshot child list (0 when empty). -/
def treeDepthL : NodeList → Nat
  | .nil => 0
  | .cons h rest => max (treeDepth h) (treeDepthL rest)
end

/-- Concrete two-page structure: an internal root at block 0 with one
valid downlink to a leaf at block 1 that has 3 slots and 50 free bytes. -/
def exTwoPages : GistTree :=
  .node 0 InvalidBlockNumber 100
    (.cons false (.leaf 1 InvalidBlockNumber 3 50) .nil)

/-- Concrete one-page structure: a completely full leaf root (5 slots,
0 free bytes). -/
def exFullLeaf : GistTree :=
  .leaf 0 InvalidBlockNumber 5 0

/-- Concrete three-page structure: internal root with one invalid and one
valid downlink to leaves. -/
def exThreePages : GistTree :=
  .node 0 InvalidBlockNumber 80
    (.cons true (.leaf 1 2 5 100)
      (.cons false (.leaf 2 InvalidBlockNumber 7 200) .nil))

/-- Concrete statistics accumulator whose leaf-restricted counters are
below their totals. -/
def exStats : Stats := ⟨0, 5, 3, 2, 6, 0, 50, 40, 100⟩

/-- The usable page capacity evaluates to 8160 bytes (8192 minus the
32-byte MAXALIGN-rounded header-plus-item-id). -/
theorem PAGE_SIZE_eq : PAGE_SIZE = 8160 := by decide

/-- Visiting the children of an entry list from a page at a given level
reaches exactly level + height of the list, once the level of the page
itself is folded in. -/
theorem levelE_eq : ∀ (es : EntryList) (level : Nat),
    max level (levelE es level) = level + (measuresE es).height
  | .nil, level => by simp [levelE, measuresE]
  | .cons inv c rest, level => by
    have ih := levelE_eq rest level
    simp [levelE, measuresE]
    omega

mutual
/-- Master characterization of stats_inner: it adds the reference
measures of the subtree to every counter (BLCKSZ per page to total_size)
and maxes the level with level + height, independently of the max_level
argument. -/
theorem stats_inner_eq (t : GistTree) (level : Nat) (ml : Option Nat) (s : Stats) :
    stats_inner level ml t s =
      ⟨max s.level (level + (measures t).height),
        s.num_pages + (measures t).size,
        s.num_leaf_pages + (measures t).leaves,
        s.num_leaf_tuple + (measures t).leafTuples,
        s.num_tuple + (measures t).tuples,
        s.num_invalid_tuple + (measures t).invalid,
        s.tuple_size + (measures t).occ,
        s.leaf_tuple_size + (measures t).leafOcc,
        s.total_size + BLCKSZ * (measures t).size⟩ := by
  cases t with
  | leaf blk r mo fs =>
    simp [stats_inner, measures, GistTree.maxOffset, GistTree.freeSpace]
  | node blk r fs es =>
    have h := levelE_eq es level
    simp [stats_inner, measures, GistTree.maxOffset, GistTree.freeSpace, BLCKSZ,
      stats_entries_eq es level ml]
    omega
/-- Master characterization of the entry loop of stats_inner. -/
theorem stats_entries_eq (es : EntryList) (level : Nat) (ml : Option Nat) (s : Stats) :
    stats_entries level ml es s =
      ⟨max s.level (levelE es level),
        s.num_pages + (measuresE es).size,
        s.num_leaf_pages + (measuresE es).leaves,
        s.num_leaf_tuple + (measuresE es).leafTuples,
        s.num_tuple + (measuresE es).tuples,
        s.num_invalid_tuple + (measuresE es).invalid,
        s.tuple_size + (measuresE es).occ,
        s.leaf_tuple_size + (measuresE es).leafOcc,
        s.total_size + BLCKSZ * (measuresE es).size⟩ := by
  cases es with
  | nil => simp [stats_entries, measuresE, levelE]
  | cons inv c rest =>
    cases inv with
    | false =>
      simp [stats_entries, measuresE, levelE, BLCKSZ,
        stats_inner_eq c (level + 1) ml, stats_entries_eq rest level ml]
      omega
    | true =>
      simp [stats_entries, measuresE, levelE, BLCKSZ,
        stats_inner_eq c (level + 1) ml, stats_entries_eq rest level ml]
      omega
end

mutual
/-- The leaf-restricted reference measures never exceed their totals. -/
theorem measures_le : ∀ t : GistTree,
    (measures t).leaves ≤ (measures t).size ∧
    (measures t).leafTuples ≤ (measures t).tuples ∧
    (measures t).leafOcc ≤ (measures t).occ
  | .leaf blk r mo fs => by simp [measures]
  | .node blk r fs es => by
    have ih := measuresE_le es
    simp [measures]
    omega
/-- The leaf-restricted reference measures of an entry list never exceed
their totals. -/
theorem measuresE_le : ∀ es : EntryList,
    (measuresE es).leaves ≤ (measuresE es).size ∧
    (measuresE es).leafTuples ≤ (measuresE es).tuples ∧
    (measuresE es).leafOcc ≤ (measuresE es).occ
  | .nil => by simp [measuresE]
  | .cons inv c rest => by
    have ihc := measures_le c
    have ihr := measuresE_le rest
    simp [measuresE]
    omega
end

mutual
/-- An unbounded snapshot has exactly one node per page of the model. -/
theorem nodeCount_get : ∀ (t : GistTree) (level offset : Nat),
    nodeCount (get_tree_node level none t offset) = (measures t).size
  | .leaf blk r mo fs, level, offset => by
    simp [get_tree_node, IndexTreeNode.new, nodeCount, measures]
  | .node blk r fs es, level, offset => by
    have ih := nodeCountL_get es level FirstOffsetNumber
    simp [get_tree_node, IndexTreeNode.new, IndexTreeNode.withChildren,
      nodeCount, measures, ih]
/-- Unbounded snapshot node count over a child list. -/
theorem nodeCountL_get : ∀ (es : EntryList) (level i : Nat),
    nodeCountL (get_tree_children level none es i) = (measuresE es).size
  | .nil, level, i => by simp [get_tree_children, nodeCountL, measuresE]
  | .cons inv c rest, level, i => by
    have ihc := nodeCount_get c (level + 1) i
    have ihr := nodeCountL_get rest level (i + 1)
    simp [get_tree_children, nodeCountL, measuresE, ihc, ihr]
end

mutual
/-- An unbounded snapshot is exactly one level deeper than the zero-based
height of the model. -/
theorem treeDepth_get : ∀ (t : GistTree) (level offset : Nat),
    treeDepth (get_tree_node level none t offset) = 1 + (measures t).height
  | .leaf blk r mo fs, level, offset => by
    simp [get_tree_node, IndexTreeNode.new, treeDepth, measures]
  | .node blk r fs es, level, offset => by
    have ih := treeDepthL_get es level FirstOffsetNumber
    simp [get_tree_node, IndexTreeNode.new, IndexTreeNode.withChildren,
      treeDepth, measures, ih]
/-- Unbounded snapshot depth over a child list. -/
theorem treeDepthL_get : ∀ (es : EntryList) (level i : Nat),
    treeDepthL (get_tree_children level none es i) = (measuresE es).height
  | .nil, level, i => by simp [get_tree_children, treeDepthL, measuresE]
  | .cons inv c rest, level, i => by
    have ihc := treeDepth_get c (level + 1) i
    have ihr := treeDepthL_get rest level (i + 1)
    simp [get_tree_children, treeDepthL, measuresE, ihc, ihr]
end

/-- C1.  The claim reads: the stats traversal honours the optional depth
bound exactly like the snapshot traversal, so stats with max_level some 0
visits only the root page (level 0, one page).  The code does not: the
stats_inner of src/src/gist.rs lines 73-108 threads max_level through
every recursive call but never consults it, so the accumulator is
independent of the bound (first conjunct), and on a two-page structure a
some-0 run still visits the child page, returning num_pages 2 and level 1
(remaining conjuncts) where the claim requires 1 and 0. -/
theorem claim_C1 :
    (∀ (t : GistTree) (ml : Option Nat), stats t ml = stats t none) ∧
    (stats exTwoPages (some 0)).num_pages = 2 ∧
    (stats exTwoPages (some 0)).level = 1 := by
  refine ⟨fun t ml => ?_, by decide, by decide⟩
  rw [stats, stats_inner_eq, stats, stats_inner_eq]

/-- C2.  Whenever the depth bound is reached at a page (bound at most the
current level), get_tree_node still builds and returns the node for that
page with all its fields, but with no children: none for a leaf and an
empty child list for an internal page.  With bound 0 at the root this is
exactly the childless root node, whatever the real depth of the structure. -/
theorem claim_C2 :
    ∀ (t : GistTree) (level m offset : Nat), m ≤ level →
      (get_tree_node level (some m) t offset).offset = offset ∧
      (get_tree_node level (some m) t offset).max_offset = t.maxOffset ∧
      (get_tree_node level (some m) t offset).block_num = t.blk ∧
      (get_tree_node level (some m) t offset).free_space = t.freeSpace ∧
      (get_tree_node level (some m) t offset).right_link =
        (if t.rightlink = InvalidBlockNumber then none else some t.rightlink) ∧
      (get_tree_node level (some m) t offset).childless = true := by
  intro t level m offset h
  cases t with
  | leaf blk r mo fs =>
    simp [get_tree_node, IndexTreeNode.new, IndexTreeNode.offset,
      IndexTreeNode.max_offset, IndexTreeNode.block_num, IndexTreeNode.free_space,
      IndexTreeNode.right_link, IndexTreeNode.childless, GistTree.maxOffset,
      GistTree.blk, GistTree.rightlink, GistTree.freeSpace]
  | node blk r fs es =>
    have hb : ¬ level < m := by omega
    simp [get_tree_node, hb, IndexTreeNode.new, IndexTreeNode.offset,
      IndexTreeNode.max_offset, IndexTreeNode.block_num, IndexTreeNode.free_space,
      IndexTreeNode.right_link, IndexTreeNode.childless, GistTree.maxOffset,
      GistTree.blk, GistTree.rightlink, GistTree.freeSpace]

/-- C2 witness: with bound 0 at the root of the two-page structure the
returned root node is childless although the structure has depth 2. -/
theorem claim_C2_witness :
    (0 : Nat) ≤ 0 ∧ (get_tree_node 0 (some 0) exTwoPages 0).childless = true :=
  ⟨by decide, (claim_C2 exTwoPages 0 0 0 (by decide)).2.2.2.2.2⟩

/-- C3 counterexample.  The claim reads: one single page-capacity
constant C has, for each visited page, C minus the free space of the page
added to tuple_size and C itself added to total_size, so that total_size
is C times num_pages and tuple_size sums C minus free space.  On the
one-page structure exFullLeaf (free space 0) the code yields total_size
8192 (BLCKSZ) but tuple_size 8160 (PAGE_SIZE), so no such single C
exists. -/
theorem claim_C3_counterexample :
    ¬ ∃ C : Nat,
      (stats exFullLeaf none).total_size = C * (stats exFullLeaf none).num_pages ∧
      (stats exFullLeaf none).tuple_size = C - exFullLeaf.freeSpace := by
  rintro ⟨C, h1, h2⟩
  have e1 : (stats exFullLeaf none).total_size = 8192 := by decide
  have e2 : (stats exFullLeaf none).num_pages = 1 := by decide
  have e3 : (stats exFullLeaf none).tuple_size = 8160 := by decide
  have e4 : exFullLeaf.freeSpace = 0 := by decide
  rw [e1, e2] at h1
  rw [e3, e4] at h2
  omega

/-- C3 as amended: the stats run uses two distinct capacity constants.
Every visited page adds PAGE_SIZE minus its free space (usable capacity)
to the occupied-byte total tuple_size, and adds BLCKSZ (raw block size)
to the capacity-byte total total_size; hence total_size equals BLCKSZ
times num_pages, and tuple_size equals the sum over visited pages of
PAGE_SIZE minus free space (the occ reference measure). -/
theorem claim_C3 :
    ∀ (t : GistTree) (ml : Option Nat),
      (stats t ml).total_size = BLCKSZ * (stats t ml).num_pages ∧
      (stats t ml).tuple_size = (measures t).occ := by
  intro t ml
  rw [stats, stats_inner_eq]
  simp [Stats.default]

/-- C4.  An unbounded stats run counts exactly the internal-page slots
whose entries carry the invalid marker (the invalid reference measure,
however they are distributed over the pages); invalid entries still
participate in the entry total (num_tuple sums the slot count of every page)
and their children are still descended into (num_pages counts every page
of the model). -/
theorem claim_C4 :
    ∀ t : GistTree,
      (stats t none).num_invalid_tuple = (measures t).invalid ∧
      (stats t none).num_tuple = (measures t).tuples ∧
      (stats t none).num_pages = (measures t).size := by
  intro t
  rw [stats, stats_inner_eq]
  simp [Stats.default]

/-- C5.  The unbounded stats run and the unbounded snapshot agree:
num_pages equals the node count of the snapshot tree, and level equals
the depth of the snapshot tree minus one (zero-based levels). -/
theorem claim_C5 :
    ∀ t : GistTree,
      (stats t none).num_pages = nodeCount (get_tree t none) ∧
      (stats t none).level = treeDepth (get_tree t none) - 1 := by
  intro t
  rw [stats, stats_inner_eq, get_tree, nodeCount_get, treeDepth_get]
  simp [Stats.default]

/-- C6.  The slot-count computation is the guarded formula of
page_max_offset_number: zero whenever the lower boundary does not exceed
the header size (the guard makes the subtraction total even on an
uninitialized or corrupted page), and (lowerBoundary - headerSize) /
slotEntrySize otherwise. -/
theorem claim_C6 :
    ∀ pd_lower : Nat,
      (pd_lower ≤ sizeOfPageHeaderData → page_max_offset_number pd_lower = 0) ∧
      (sizeOfPageHeaderData < pd_lower →
        page_max_offset_number pd_lower =
          (pd_lower - sizeOfPageHeaderData) / sizeOfItemIdData) := by
  intro pd
  constructor
  · intro h
    simp [page_max_offset_number, h]
  · intro h
    rw [page_max_offset_number, if_neg (by omega)]

/-- C6 witness: a page whose lower boundary 32 exceeds the 24-byte header
has (32 - 24) / 4 = 2 populated slots. -/
theorem claim_C6_witness :
    sizeOfPageHeaderData < 32 ∧ page_max_offset_number 32 = 2 :=
  ⟨by decide, by rw [(claim_C6 32).2 (by decide)]; decide⟩

/-- C7.  The decoded child block number places the high 16-bit half of
the ItemPointer block id in the upper 16 bits and the low half in the
lower 16 bits: for in-range halves it equals hi * 2^16 + lo and fits in
32 bits. -/
theorem claim_C7 :
    ∀ bi_hi bi_lo : Nat, bi_hi < 2 ^ 16 → bi_lo < 2 ^ 16 →
      item_ptr_get_blk_num bi_hi bi_lo = bi_hi * 2 ^ 16 + bi_lo ∧
      item_ptr_get_blk_num bi_hi bi_lo < 2 ^ 32 := by
  intro hi lo hhi hlo
  have e : item_ptr_get_blk_num hi lo = hi * 2 ^ 16 + lo := by
    rw [item_ptr_get_blk_num, Nat.shiftLeft_eq, Nat.mul_comm]
    exact (Nat.mul_add_lt_is_or hlo hi).symm
  refine ⟨e, ?_⟩
  rw [e]
  omega

/-- C7 witness: halves 1 and 2 decode to 65538 = 1 * 2^16 + 2. -/
theorem claim_C7_witness :
    (1 : Nat) < 2 ^ 16 ∧ (2 : Nat) < 2 ^ 16 ∧
    (item_ptr_get_blk_num 1 2 = 1 * 2 ^ 16 + 2 ∧
      item_ptr_get_blk_num 1 2 < 2 ^ 32) :=
  ⟨by decide, by decide, claim_C7 1 2 (by decide) (by decide)⟩

/-- C8.  A page has an opaque region exactly when the special-region
offset lies in the closed interval [headerSize, BLCKSZ], the typed
reinterpretation of the trailing region succeeds exactly when that holds,
and under that precondition it returns the region (the fatal layout
violation branch is unreachable). -/
theorem claim_C8 :
    ∀ pd_special : Nat,
      (page_is_special_ptr pd_special = true ↔
        sizeOfPageHeaderData ≤ pd_special ∧ pd_special ≤ BLCKSZ) ∧
      ((page_get_special_ptr pd_special).isSome = true ↔
        page_is_special_ptr pd_special = true) ∧
      (page_is_special_ptr pd_special = true →
        page_get_special_ptr pd_special = some pd_special) := by
  intro i
  refine ⟨?_, ?_, ?_⟩
  · simp [page_is_special_ptr]
    tauto
  · simp only [page_get_special_ptr]
    split
    · simp [*]
    · simp_all
  · intro h
    simp [page_get_special_ptr, h]

/-- C8 witness: offset 100 lies in [24, 8192], so the opaque region is
present and its reinterpretation succeeds. -/
theorem claim_C8_witness :
    page_is_special_ptr 100 = true ∧ page_get_special_ptr 100 = some 100 :=
  ⟨by decide, (claim_C8 100).2.2 (by decide)⟩

/-- C9.  Whenever the leaf-restricted counters of the incoming
accumulator are below their totals, they still are after any recursive
stats step (each leaf-side increment comes with an at-least-equal
total-side increment), and in particular in the accumulator a completed
stats run returns. -/
theorem claim_C9 :
    (∀ (level : Nat) (ml : Option Nat) (t : GistTree) (s : Stats),
      s.num_leaf_pages ≤ s.num_pages →
      s.num_leaf_tuple ≤ s.num_tuple →
      s.leaf_tuple_size ≤ s.tuple_size →
        (stats_inner level ml t s).num_leaf_pages ≤ (stats_inner level ml t s).num_pages ∧
        (stats_inner level ml t s).num_leaf_tuple ≤ (stats_inner level ml t s).num_tuple ∧
        (stats_inner level ml t s).leaf_tuple_size ≤ (stats_inner level ml t s).tuple_size) ∧
    (∀ (t : GistTree) (ml : Option Nat),
      (stats t ml).num_leaf_pages ≤ (stats t ml).num_pages ∧
      (stats t ml).num_leaf_tuple ≤ (stats t ml).num_tuple ∧
      (stats t ml).leaf_tuple_size ≤ (stats t ml).tuple_size) := by
  constructor
  · intro level ml t s h1 h2 h3
    have hm := measures_le t
    rw [stats_inner_eq]
    simp
    omega
  · intro t ml
    have hm := measures_le t
    rw [stats, stats_inner_eq]
    simp [Stats.default]
    omega

/-- C9 witness: one recursive step on the three-page structure from an
accumulator satisfying the invariant preserves it. -/
theorem claim_C9_witness :
    (exStats.num_leaf_pages ≤ exStats.num_pages ∧
      exStats.num_leaf_tuple ≤ exStats.num_tuple ∧
      exStats.leaf_tuple_size ≤ exStats.tuple_size) ∧
    ((stats_inner 0 none exThreePages exStats).num_leaf_pages ≤
        (stats_inner 0 none exThreePages exStats).num_pages ∧
      (stats_inner 0 none exThreePages exStats).num_leaf_tuple ≤
        (stats_inner 0 none exThreePages exStats).num_tuple ∧
      (stats_inner 0 none exThreePages exStats).leaf_tuple_size ≤
        (stats_inner 0 none exThreePages exStats).tuple_size) :=
  ⟨⟨by decide, by decide, by decide⟩,
    claim_C9.1 0 none exThreePages exStats (by decide) (by decide) (by decide)⟩

mutual
/-- The unbounded dump of src/src/lib.rs and rendering the unbounded
snapshot of src/src/gist.rs produce the same line records from any page
of the model. -/
theorem dump_render : ∀ (t : GistTree) (level offset : Nat),
    dump_tree level none t offset =
      render_node (get_tree_node level none t offset) level
  | .leaf blk r mo fs, level, offset => by
    simp [dump_tree, get_tree_node, IndexTreeNode.new, render_node,
      GistTree.blk, GistTree.maxOffset, GistTree.freeSpace]
  | .node blk r fs es, level, offset => by
    have ih := dump_render_children es level FirstOffsetNumber
    simp [dump_tree, get_tree_node, IndexTreeNode.new, IndexTreeNode.withChildren,
      render_node, GistTree.blk, GistTree.maxOffset, GistTree.freeSpace, ih]
/-- Child-loop version of dump_render. -/
theorem dump_render_children : ∀ (es : EntryList) (level i : Nat),
    dump_children level none es i =
      render_children (get_tree_children level none es i) (level + 1)
  | .nil, level, i => by
    simp [dump_children, get_tree_children, render_children]
  | .cons inv c rest, level, i => by
    have ihc := dump_render c (level + 1) i
    have ihr := dump_render_children rest level (i + 1)
    simp [dump_children, get_tree_children, render_children, ihc, ihr]
end

/-- C10.  The two source revisions implement the same traversal engine:
the unbounded recursive dump of src/src/lib.rs and the unbounded
snapshot-then-render pipeline of src/src/gist.rs visit the same pages in
the same pre-order and report, line for line, the same parent slot
position, depth, page number, slot count and free-space byte count. -/
theorem claim_C10 :
    ∀ t : GistTree, dump t = render (get_tree t none) := by
  intro t
  rw [dump, render, get_tree]
  exact dump_render t 0 0

end Gevel
